import Mathlib

/-!
Verification of the dynamic-agent conversational gateway (Rust) against its
natural-language specification.  Rust code is shallowly embedded: pure string
manipulation is translated to functions on `List Char` / `String`, stateful
operations become explicit state passing, collaborator crates (serde_json,
hmac/sha2+hex, the Qdrant ANN search, strsim and the LLM backends) are
parameters of the embedded functions, and fallible Rust code returns
`Option`/`Except`.  All `f32` scores are modelled as exact rationals: the IEEE
comparisons performed by the source never involve NaN on these paths, and on
non-NaN values they agree with the rational order.  Rust strings are modelled
as their character sequences; every literal manipulated by the embedded code
is ASCII, where Rust's byte-wise operations coincide with the character-wise
model (UTF-8 byte order equals code-point order).
-/

namespace DynamicAgent

/-! ## Shared string utilities (models of Rust `str` operations) -/

/-- Model of Rust `str::find` for a literal pattern: index of the leftmost
occurrence of `p` in `t` (`some 0` for the empty pattern, as in Rust). -/
def findSub (p : List Char) : List Char → Option Nat
  | [] => if p.isPrefixOf ([] : List Char) then some 0 else none
  | c :: ts =>
    if p.isPrefixOf (c :: ts) then some 0
    else (findSub p ts).map (· + 1)

/-- Model of Rust `str::contains` for a literal pattern. -/
def containsSub (p t : List Char) : Bool := (findSub p t).isSome

/-- Structural worker for `replaceAll`; the fuel strictly dominates the
input length at every call, so the `0, t => t` clause is never reached when
the fuel starts at `t.length`. -/
def replaceAllGo (p r : List Char) : Nat → List Char → List Char
  | _, [] => []
  | 0, t => t
  | fuel + 1, c :: ts =>
    if p ≠ [] ∧ p.isPrefixOf (c :: ts) then
      r ++ replaceAllGo p r fuel ((c :: ts).drop p.length)
    else
      c :: replaceAllGo p r fuel ts

/-- Model of Rust `String::replace` for a non-empty literal pattern:
left-to-right, non-overlapping replacement.  (The source never calls
`replace` with an empty pattern; for `p = []` this function is the
identity.) -/
def replaceAll (p r t : List Char) : List Char := replaceAllGo p r t.length t

/-- ASCII whitespace, the fragment of Rust's `char::is_whitespace` exercised
by the source (all cleaned text is ASCII). -/
def isWs (c : Char) : Bool := c == ' ' || c == '\t' || c == '\n' || c == '\r'

/-- Model of Rust `str::trim`. -/
def trimL (l : List Char) : List Char :=
  ((l.dropWhile isWs).reverse.dropWhile isWs).reverse

/-- `str::contains` on `String`s. -/
def strContains (hay pat : String) : Bool := containsSub pat.data hay.data

/-- `String::replace` on `String`s. -/
def strReplace (s pat rep : String) : String :=
  String.mk (replaceAll pat.data rep.data s.data)

/-- `str::trim` on `String`s. -/
def strTrim (s : String) : String := String.mk (trimL s.data)

/-- Model of Rust `str::to_lowercase` on the ASCII fragment used by the
source (keyword matching and cache-key normalisation). -/
def strLower (s : String) : String := String.mk (s.data.map Char.toLower)

/-! ## C3 — prompt configuration validation (src/config/prompt.rs) -/

/-- An intent table entry, from `IntentDefinition` in src/config/prompt.rs. -/
structure IntentDefinition where
  description : String
  action : String
deriving DecidableEq, Repr

/-- The error enum `PromptError` (src/config/prompt.rs); IO/JSON wrapping
variants carry only their message here. -/
inductive PromptError
  | TemplateNotFound (key : String)
  | IntentNotFound (key : String)
  | ActionError (msg : String)
  | IoError (msg : String)
  | JsonError (msg : String)
deriving DecidableEq, Repr

/-- `PromptConfig` (src/config/prompt.rs).  The three `HashMap`s are modelled
as association lists; the `#[serde(skip)]` field `last_loaded` carries no
template data and is omitted. -/
structure PromptConfig where
  intents : List (String × IntentDefinition)
  query_templates : List (String × String)
  response_templates : List (String × String)
deriving DecidableEq, Repr

/-- `HashMap::contains_key`. -/
def containsKey (m : List (String × String)) (k : String) : Bool :=
  m.any (fun p => p.1 == k)

/-- `HashMap::get` (first binding; the source maps have unique keys). -/
def mapGet (m : List (String × String)) (k : String) : Option String :=
  (m.find? (fun p => p.1 == k)).map (·.2)

/-- `PromptConfig::_validate` (src/config/prompt.rs lines 78-103), checked in
source order. -/
def PromptConfig.validate (c : PromptConfig) : Except PromptError Unit :=
  if ¬containsKey c.query_templates "intent_classification" then
    .error (.TemplateNotFound "query_templates:intent_classification")
  else if ¬containsKey c.query_templates "rag_topic_inference" then
    .error (.TemplateNotFound "query_templates:rag_topic_inference")
  else if ¬containsKey c.query_templates "rag_dynamic_query_generation" then
    .error (.TemplateNotFound "query_templates:rag_dynamic_query_generation")
  else if ¬containsKey c.response_templates "rag_final_answer" then
    .error (.TemplateNotFound "response_templates:rag_final_answer")
  else
    .ok ()

/-- `load_prompts_from_str` after the (external) serde parse: the freshly
parsed config is validated and returned.  Both the local-file path and the
remote-config path funnel through this function. -/
def loadParsedPrompts (c : PromptConfig) : Except PromptError PromptConfig :=
  match c.validate with
  | .ok () => .ok c
  | .error e => .error e

/-! ## Qdrant payload model (src/cache/qdrant.rs, src/agent.rs, src/history/qdrant.rs) -/

/-- A Qdrant payload value (`qdrant_client::qdrant::Value`), restricted to the
kinds the source inspects: strings, integers, and an opaque remainder. -/
inductive QVal
  | s (v : String)
  | i (v : Int)
  | other
deriving DecidableEq, Repr

/-- A point payload: a map from field name to value (Qdrant payloads have
unique keys). -/
abbrev QPayload := List (String × QVal)

/-- Payload field lookup (`payload.get(k)`). -/
def QPayload.get (p : QPayload) (k : String) : Option QVal :=
  (p.find? (fun kv => kv.1 == k)).map (·.2)

/-- `Value::as_str` / matching on `Kind::StringValue`. -/
def QVal.asStr : QVal → Option String
  | .s v => some v
  | _ => none

/-- `Value::as_integer`. -/
def QVal.asInt : QVal → Option Int
  | .i v => some v
  | _ => none

/-- The `CachePayload` struct (src/agent.rs and src/cache/qdrant.rs). -/
structure CachePayload where
  normalized_prompt : String
  response : String
deriving DecidableEq, Repr

/-- Model of `serde_json::from_value::<CachePayload>` applied to the JSON
object obtained from a Qdrant payload: both fields must be present as
strings (serde ignores extra fields and rejects missing or non-string
ones). -/
def parseCachePayload (p : QPayload) : Option CachePayload :=
  match (p.get "normalized_prompt").bind QVal.asStr,
        (p.get "response").bind QVal.asStr with
  | some n, some r => some ⟨n, r⟩
  | _, _ => none

/-- A scored search result (`ScoredPoint`): similarity score and payload. -/
structure ScoredPoint where
  score : Rat
  payload : QPayload
deriving DecidableEq, Repr

/-! ## C4 — semantic-tier cache search -/

/-- The payload-extraction step of tier-B reads, as performed by
`cache::qdrant::search` (src/cache/qdrant.rs lines 58-72): prefer a direct
string `response` field, otherwise attempt a full `CachePayload` decode. -/
def extractResponse (p : QPayload) : Option String :=
  match p.get "response" with
  | some (QVal.s s) => some s
  | _ => (parseCachePayload p).map (·.response)

/-- `cache::qdrant::search` (src/cache/qdrant.rs lines 42-73).  The ANN
search itself is the external collaborator: `top` is the top-1 result the
Qdrant server returned for `embedding` (`none` models both an empty result
list and a transport error, which `.ok()?` collapses to `None`). -/
def cacheQdrantSearch (clientPresent : Bool) (top : Option ScoredPoint)
    (embedding : List Int) (threshold : Rat) : Option (String × List Int) :=
  if ¬clientPresent then none
  else
    match top with
    | none => none
    | some pt =>
      if pt.score < threshold then none
      else
        match pt.payload.get "response" with
        | some (QVal.s s) => some (s, embedding)
        | _ =>
          match parseCachePayload pt.payload with
          | some cp => some (cp.response, embedding)
          | none => none

/-- The per-point hit logic of `AIAgent::check_qdrant_cache`
(src/agent.rs lines 366-391): score gate then a full `CachePayload` decode
(a malformed payload is logged and demoted to a miss). -/
def agentQdrantHit (top : Option ScoredPoint) (threshold : Rat)
    (vec : List Int) : Option (String × List Int) :=
  match top with
  | some point =>
    if point.score ≥ threshold then
      match parseCachePayload point.payload with
      | some cached => some (cached.response, vec)
      | none => none
    else none
  | none => none

/-! ## C5 — two-tier cache façade (src/cache/mod.rs, redis.rs, qdrant.rs) -/

/-- A minimal JSON value model for `serde_json::Value` as inspected by the
cache façade (`get("response")` / `as_str`). -/
inductive Json
  | str (s : String)
  | num (n : Int)
  | obj (fields : List (String × Json))
  | arr (items : List Json)
  | bool (b : Bool)
  | null

/-- `Value::get` on objects (first binding). -/
def Json.get (j : Json) (k : String) : Option Json :=
  match j with
  | .obj fields => (fields.find? (fun kv => kv.1 == k)).map (·.2)
  | _ => none

/-- `Value::as_str`. -/
def Json.asStr : Json → Option String
  | .str s => some s
  | _ => none

/-- `str::starts_with('{')`. -/
def startsWithBrace (s : String) : Bool :=
  match s.data with
  | c :: _ => c == '\x7b'
  | [] => false

/-- `val.contains("\"response\"")`. -/
def containsResponseKey (s : String) : Bool :=
  strContains s "\"response\""

/-- The envelope-unwrap applied to both tiers by `cache::check`
(src/cache/mod.rs lines 39-45 and 53-59): if the stored value looks like a
JSON envelope and decodes to an object with a string `response` field, the
nested response is returned; any failure falls back to the raw value.
`parseJson` is the external `serde_json::from_str::<Value>` collaborator. -/
def envelopeUnwrap (parseJson : String → Option Json) (val : String) : String :=
  if startsWithBrace val ∧ containsResponseKey val then
    match parseJson val with
    | some j =>
      match (j.get "response").bind Json.asStr with
      | some r => r
      | none => val
    | none => val
  else val

/-- A tier-B cache point as written by `cache::qdrant::upsert`
(the fresh UUID point id is irrelevant to the façade's behaviour). -/
structure CachePoint where
  normalized_prompt : String
  response : String
  embedding : List Int
deriving DecidableEq, Repr

/-- The `CacheClients` state (src/cache/mod.rs).  The exact tier is the
key-value map behind the optional Redis connection; the semantic tier keeps
the upserted points, while the ANN ranking over them is the external
collaborator `qdrantTop` (top-1 result for a query embedding). -/
structure CacheClients where
  redisPresent : Bool
  redisStore : List (String × String)
  qdrantPresent : Bool
  qdrantPoints : List CachePoint
  qdrantTop : List Int → Option ScoredPoint
  threshold : Rat
  ttl : Nat

/-- `cache::redis::get` (src/cache/redis.rs lines 16-29): any error,
including a missing key, is reported as `None`. -/
def cacheRedisGet (clients : CacheClients) (key : String) : Option String :=
  if clients.redisPresent then
    (clients.redisStore.find? (fun kv => kv.1 == key)).map (·.2)
  else none

/-- Overwrite-or-insert for the Redis key space. -/
def kvSet (store : List (String × String)) (key v : String) :
    List (String × String) :=
  (key, v) :: store.filter (fun kv => kv.1 != key)

/-- `cache::redis::set` (src/cache/redis.rs lines 31-46); the TTL selects
`SET EX` versus plain `SET` and does not change the stored value. -/
def cacheRedisSet (clients : CacheClients) (key v : String) : CacheClients :=
  if clients.redisPresent then
    { clients with redisStore := kvSet clients.redisStore key v }
  else clients

/-- `cache::qdrant::upsert` (src/cache/qdrant.rs lines 95-122): skipped
silently unless a client is present and the embedding is non-empty. -/
def cacheQdrantUpsert (clients : CacheClients) (normalized response : String)
    (embedding : List Int) : CacheClients :=
  if clients.qdrantPresent ∧ embedding ≠ [] then
    { clients with
      qdrantPoints := clients.qdrantPoints ++ [⟨normalized, response, embedding⟩] }
  else clients

/-- `cache::check` (src/cache/mod.rs lines 31-64).  `parseJson` models
`serde_json::from_str::<Value>`; `embed` is the embedding client (its result
is only requested on a tier-A miss). -/
def cacheCheck (parseJson : String → Option Json)
    (embed : String → Except String (List Int))
    (clients : CacheClients) (normalized : String) :
    Except String (Option (String × List Int)) :=
  match cacheRedisGet clients normalized with
  | some val => .ok (some (envelopeUnwrap parseJson val, []))
  | none =>
    match embed normalized with
    | .error e => .error e
    | .ok emb =>
      match cacheQdrantSearch clients.qdrantPresent (clients.qdrantTop emb)
          emb clients.threshold with
      | some (responseText, embVec) =>
        .ok (some (envelopeUnwrap parseJson responseText, embVec))
      | none => .ok none

/-- `cache::update` (src/cache/mod.rs lines 66-75): write both tiers, with
no check on the response's content. -/
def cacheUpdate (clients : CacheClients) (normalized response : String)
    (embedding : List Int) : CacheClients :=
  cacheQdrantUpsert (cacheRedisSet clients normalized response)
    normalized response embedding

/-! ## C1 — WebSocket handshake authentication
(src/server.rs lines 183-233 and the identical
src/server/websocket.rs lines 173-223) -/

/-- Outcome of the tungstenite handshake callback: either the upgrade
response is allowed through or an `ErrorResponse` with the given HTTP status
and body is returned. -/
inductive AuthResult
  | accepted
  | rejected (status : Nat) (body : String)
deriving DecidableEq, Repr

/-- `HashMap` collected from `form_urlencoded::parse`: for a duplicated key
the last pair wins. -/
def hashMapGet (params : List (String × String)) (k : String) : Option String :=
  (params.reverse.find? (fun p => p.1 == k)).map (·.2)

/-- Model of Rust `str::parse::<i64>()`: optional sign, one or more ASCII
digits, nothing else, and the value must fit in `i64`. -/
def parseI64 (s : String) : Option Int :=
  let cs := s.data
  let signed : Int × List Char :=
    match cs with
    | '+' :: rest => (1, rest)
    | '-' :: rest => (-1, rest)
    | _ => (1, cs)
  match signed with
  | (sign, digits) =>
    if digits = [] then none
    else if digits.all Char.isDigit then
      let v : Int :=
        sign * ((digits.foldl (fun acc c => acc * 10 + (c.toNat - '0'.toNat)) 0 : Nat) : Int)
      if -(2 ^ 63) ≤ v ∧ v ≤ 2 ^ 63 - 1 then some v else none
    else none

/-- The `ts` query parameter with its `X-Api-Ts` alias. -/
def getTsParam (params : List (String × String)) : Option String :=
  (hashMapGet params "ts").orElse (fun _ => hashMapGet params "X-Api-Ts")

/-- The `sig` query parameter with its `X-Api-Sign` alias. -/
def getSigParam (params : List (String × String)) : Option String :=
  (hashMapGet params "sig").orElse (fun _ => hashMapGet params "X-Api-Sign")

/-- The handshake auth callback of `process_connection` (src/server.rs lines
183-233).  `hmacHex secret msg` is the external collaborator
`hex::encode(HMAC-SHA256(key = secret, msg))`, a lowercase hex digest;
`now` is `Utc::now().timestamp()`.  Integer arithmetic is exact here;
it coincides with the source's `i64` arithmetic whenever `|now| ≤ 2^62`
(the parsed timestamp is already bounded by the `i64` range). -/
def authCallback (hmacHex : String → String → String)
    (requiredApiKey : Option String) (params : List (String × String))
    (now : Int) : AuthResult :=
  match requiredApiKey with
  | some secret =>
    if secret = "" then .accepted
    else
      match getTsParam params, getSigParam params with
      | some tsStr, some sigStr =>
        let tsI : Int := (parseI64 tsStr).getD 0
        if 300 < |now - tsI| then .rejected 401 "timestamp out of range"
        else if hmacHex secret tsStr = sigStr then .accepted
        else .rejected 401 "bad signature"
      | _, _ => .rejected 401 "missing ts/sig"
  | none => .accepted

/-! ## C7 — history stores (src/history/redis.rs, src/history/qdrant.rs) -/

/-- `ChatMessage` (src/models/chat.rs). -/
structure ChatMessage where
  role : String
  content : String
  timestamp : Int
deriving DecidableEq, Repr

/-- `Conversation` (src/models/chat.rs). -/
structure Conversation where
  id : String
  messages : List ChatMessage
deriving DecidableEq, Repr

/-- Redis `LRANGE` semantics (inclusive `start`/`stop`; negative indices
count from the end; out-of-range indices are clamped; an empty range yields
the empty list). -/
def lrange {α : Type} (l : List α) (start stop : Int) : List α :=
  let n : Int := l.length
  let normStart : Int := if start < 0 then n + start else start
  let normStop : Int := if stop < 0 then n + stop else stop
  let s : Int := max normStart 0
  let e : Int := min normStop (n - 1)
  if s > e then [] else (l.drop s.toNat).take (e - s + 1).toNat

/-- `RedisHistoryStore::get_conversation` (src/history/redis.rs lines
60-90).  The stored list holds, newest first, the serde parse outcome of
each `LPUSH`ed JSON entry (`none` = an entry whose parse fails and is
skipped with a logged error).  The call runs `LRANGE key 0 (limit-1)`, keeps
the parseable entries, and reverses. -/
def getConversationRedis (stored : List (Option ChatMessage))
    (conversationId : String) (limit : Nat) : Conversation :=
  let entries := lrange stored 0 ((limit : Int) - 1)
  { id := conversationId, messages := (entries.filterMap id).reverse }

/-- A point returned by a Qdrant scroll/search in the history store: the
stringified point id (`""` models an id the source cannot stringify and
skips) and the payload. -/
structure QHPoint where
  pid : String
  payload : QPayload
deriving DecidableEq, Repr

/-- `QdrantHistoryStore::payload_to_chat_message` (src/history/qdrant.rs
lines 100-106). -/
def payloadToChatMessage (p : QPayload) : Option ChatMessage :=
  match (p.get "role").bind QVal.asStr, (p.get "content").bind QVal.asStr,
        (p.get "timestamp").bind QVal.asInt with
  | some role, some content, some ts => some ⟨role, content, ts⟩
  | _, _, _ => none

/-- Insert-or-overwrite into the `combined_messages` HashMap model. -/
def hmInsert (m : List (String × ChatMessage)) (k : String) (v : ChatMessage) :
    List (String × ChatMessage) :=
  (k, v) :: m.filter (fun kv => kv.1 != k)

/-- `HashMap::contains_key` for the combined-messages map. -/
def hmContains (m : List (String × ChatMessage)) (k : String) : Bool :=
  m.any (fun kv => kv.1 == k)

/-- The recency-scroll loop of `QdrantHistoryStore::get_conversation`
(src/history/qdrant.rs lines 197-220): accumulate parseable points with a
non-empty id, remembering the first parsed message's content as the
semantic-query seed. -/
def recencyFold (points : List QHPoint) :
    List (String × ChatMessage) × Option String :=
  points.foldl
    (fun acc point =>
      match payloadToChatMessage point.payload with
      | some message =>
        let lastContent := match acc.2 with
          | none => some message.content
          | some c => some c
        if point.pid ≠ "" then (hmInsert acc.1 point.pid message, lastContent)
        else (acc.1, lastContent)
      | none => acc)
    ([], none)

/-- The semantic-search merge loop (src/history/qdrant.rs lines 279-297):
add points whose id is non-empty, not yet retrieved, and parseable. -/
def semanticFold (combined : List (String × ChatMessage))
    (points : List QHPoint) : List (String × ChatMessage) :=
  points.foldl
    (fun acc point =>
      if point.pid ≠ "" ∧ ¬hmContains acc point.pid then
        match payloadToChatMessage point.payload with
        | some message => hmInsert acc point.pid message
        | none => acc
      else acc)
    combined

/-- The final ordering step of `QdrantHistoryStore::get_conversation`
(src/history/qdrant.rs lines 300-305): stable-sort ascending by timestamp
(`Vec::sort_by_key`), then `split_off(len - limit)` keeps the last `limit`
messages when there are more than `limit`. -/
def sortAndTruncate (limit : Nat) (msgs : List ChatMessage) :
    List ChatMessage :=
  let finalMessages :=
    msgs.mergeSort (fun a b => decide (a.timestamp ≤ b.timestamp))
  if finalMessages.length > limit then
    finalMessages.drop (finalMessages.length - limit)
  else finalMessages

/-- `QdrantHistoryStore::get_conversation` (src/history/qdrant.rs lines
167-311).  The Qdrant server replies are the external collaborators:
`recencyResult` is the scroll response (ordered by descending `timestamp`,
at most `recency_limit` points — the oracle contract appears as a theorem
hypothesis), `semanticResult` the similarity-search response.  The merged
map is sorted ascending by timestamp and truncated to the last `limit`
messages; `limit - combined.len()` is the source's `usize` subtraction,
which never underflows when the scroll respects its limit and `limit ≥ 1`. -/
def getConversationQdrant (recencyResult : List QHPoint)
    (semanticResult : List QHPoint) (conversationId : String)
    (limit : Nat) : Conversation :=
  let folded := recencyFold recencyResult
  let combined := folded.1
  let semanticLimit := limit - combined.length
  let combined' :=
    if semanticLimit > 0 ∧ (folded.2).isSome then
      semanticFold combined semanticResult
    else combined
  { id := conversationId, messages := sortAndTruncate limit (combined'.map (·.2)) }

/-! ## Prompt template rendering (src/config/prompt.rs lines 194-257) -/

/-- `Display for PromptError` (src/config/prompt.rs lines 26-38), as far as
the embedded paths surface it. -/
def PromptError.render : PromptError → String
  | .TemplateNotFound key => "Prompt template \x27" ++ key ++ "\x27 not found"
  | .IntentNotFound key => "Intent definition \x27" ++ key ++ "\x27 not found"
  | .ActionError msg => "Action processing error: " ++ msg
  | .IoError msg => "Prompt file IO error: " ++ msg
  | .JsonError msg => "Prompt JSON parsing error: " ++ msg

/-- `get_query_template`. -/
def getQueryTemplate (c : PromptConfig) (key : String) :
    Except PromptError String :=
  match mapGet c.query_templates key with
  | some s => .ok s
  | none => .error (.TemplateNotFound ("query_templates:" ++ key))

/-- `get_response_template`. -/
def getResponseTemplate (c : PromptConfig) (key : String) :
    Except PromptError String :=
  match mapGet c.response_templates key with
  | some s => .ok s
  | none => .error (.TemplateNotFound ("response_templates:" ++ key))

/-- `get_intent_prompt` (src/config/prompt.rs lines 208-218); the intent
descriptions are joined in the map's iteration order. -/
def getIntentPrompt (c : PromptConfig) (message : String) :
    Except PromptError String :=
  match getQueryTemplate c "intent_classification" with
  | .error e => .error e
  | .ok template =>
    let descriptions := String.intercalate "\n"
      (c.intents.map (fun p => "- " ++ p.1 ++ ": " ++ p.2.description))
    .ok (strReplace (strReplace template "\x7bintent_descriptions\x7d" descriptions)
      "\x7bmessage\x7d" message)

/-- `get_rag_topic_prompt` (src/config/prompt.rs lines 220-227). -/
def getRagTopicPrompt (c : PromptConfig) (schemaJson userQuestion : String) :
    Except PromptError String :=
  match getQueryTemplate c "rag_topic_inference" with
  | .error e => .error e
  | .ok template =>
    .ok (strReplace (strReplace template "\x7bschema_json\x7d" schemaJson)
      "\x7buser_question\x7d" userQuestion)

/-- `get_fallback_topic_prompt` (src/config/prompt.rs lines 247-257). -/
def getFallbackTopicPrompt (c : PromptConfig)
    (schemaSummaryStr userQuestion : String) : Except PromptError String :=
  match getQueryTemplate c "fallback_topic_resolver" with
  | .error e => .error e
  | .ok template =>
    .ok (strReplace (strReplace template "\x7bschema_summary\x7d" schemaSummaryStr)
      "\x7buser_question\x7d" userQuestion)

/-- `get_rag_final_prompt` (src/config/prompt.rs lines 229-245). -/
def getRagFinalPrompt (c : PromptConfig)
    (schema topic documents userQuestion : String) :
    Except PromptError String :=
  match getResponseTemplate c "rag_final_answer" with
  | .error e => .error e
  | .ok template =>
    .ok (strReplace (strReplace (strReplace (strReplace template
      "\x7bschema\x7d" schema) "\x7btopic\x7d" topic)
      "\x7bdocuments\x7d" documents) "\x7buser_question\x7d" userQuestion)

/-! ## C6 / C8 — RAG engine (src/rag/rag.rs) -/

/-- `IndexSchema` (vector_nexus::schema). -/
structure IndexSchema where
  name : String
  fields : List String
deriving DecidableEq, Repr

/-- `RagQueryArgs` (src/rag/rag.rs). -/
structure RagQueryArgs where
  query : String
  limit : Option Nat
deriving DecidableEq, Repr

/-- One hybrid-search hit: `(score, id, document)`. -/
structure RagHit where
  score : Rat
  id : String
  doc : Json

/-- Observable side effects of a turn, used to state which collaborators
are invoked and what is written. -/
inductive Ev
  | redisGetEv (k : String)
  | redisSetEv (k v : String)
  | qdrantSearchEv (emb : List Int)
  | qdrantUpsertEv (k v : String) (emb : List Int)
  | embedEv (s : String)
  | chatEv (prompt : String)
  | histGetEv (conv : String) (n : Nat)
  | histAddEv (conv role content : String)
  | searchEv (topic query : String) (emb : List Int) (limit : Nat)
      (fields : List String)
  | countEv (topic : String)
deriving DecidableEq, Repr

/-- The RAG engine's collaborators and configuration.  `chat`/`embed` are
the LLM adapters (`.ok` carries `response.response` resp. the embedding);
`searchHybrid`/`countDocuments` the vector store; `jaroWinkler` the strsim
crate; `fmtScore` Rust's `\x7b:.4\x7d` float formatting; `renderJson` the
`serde_json` `Display`; `schemaJsonCompact`/`schemaJsonPretty` the serde
serialisations of `indexSchemas` used for the inference and answer
prompts. -/
structure RagEnv where
  chat : String → Except String String
  embed : String → Except String (List Int)
  searchHybrid : String → String → List Int → Nat → List String →
    Except String (List RagHit)
  countDocuments : String → Except String Nat
  jaroWinkler : String → String → Rat
  fmtScore : Rat → String
  renderJson : Json → String
  schemaJsonCompact : String
  schemaJsonPretty : String
  indexSchemas : List IndexSchema
  promptConfig : PromptConfig
  ragDefaultLimit : Nat
  useLlmQuery : Bool

/-- `resp.response.trim().trim_matches('"').to_lowercase()` applied to both
topic-inference responses (src/rag/rag.rs lines 136 and 157). -/
def normalizeTopicResp (s : String) : String :=
  strLower (String.mk
    ((((trimL s.data).dropWhile (· == '"')).reverse.dropWhile (· == '"')).reverse))

/-- The compact schema summary fed to the fallback resolver
(src/rag/rag.rs lines 145-148). -/
def schemaSummary (schemas : List IndexSchema) : String :=
  String.intercalate "\n" (schemas.map (fun s =>
    "- " ++ s.name ++ ": fields=" ++ String.intercalate ", " s.fields))

/-- The topic-resolution stage of `RagEngine::query_and_answer`
(src/rag/rag.rs lines 126-172): primary inference, then one fallback
attempt, then a user-facing failure. -/
def resolveTopic (env : RagEnv) (userQuestion : String) :
    Except String String × List Ev :=
  match getRagTopicPrompt env.promptConfig env.schemaJsonCompact userQuestion with
  | .error e => (.error e.render, [])
  | .ok topicPrompt =>
    match env.chat topicPrompt with
    | .error e => (.error e, [Ev.chatEv topicPrompt])
    | .ok topicResp =>
      let inferredTopic := normalizeTopicResp topicResp
      if inferredTopic = "" ∨ inferredTopic = "none" ∨
          ¬env.indexSchemas.any (fun s => s.name == inferredTopic) then
        match getFallbackTopicPrompt env.promptConfig
            (schemaSummary env.indexSchemas) userQuestion with
        | .error e => (.error e.render, [Ev.chatEv topicPrompt])
        | .ok fallbackPrompt =>
          match env.chat fallbackPrompt with
          | .error e => (.error e, [Ev.chatEv topicPrompt, Ev.chatEv fallbackPrompt])
          | .ok fallbackResp =>
            let fallbackTopic := normalizeTopicResp fallbackResp
            if fallbackTopic = "" ∨ fallbackTopic = "none" ∨
                ¬env.indexSchemas.any (fun s => s.name == fallbackTopic) then
              (.error ("RagEngine Error: Could not determine the correct data category for your question after multiple attempts. Please try rephrasing."),
               [Ev.chatEv topicPrompt, Ev.chatEv fallbackPrompt])
            else
              (.ok fallbackTopic, [Ev.chatEv topicPrompt, Ev.chatEv fallbackPrompt])
      else (.ok inferredTopic, [Ev.chatEv topicPrompt])

/-- ASCII punctuation (Rust `char::is_ascii_punctuation`). -/
def isAsciiPunct (c : Char) : Bool :=
  (0x21 ≤ c.toNat ∧ c.toNat ≤ 0x2f) ∨ (0x3a ≤ c.toNat ∧ c.toNat ≤ 0x40) ∨
  (0x5b ≤ c.toNat ∧ c.toNat ≤ 0x60) ∨ (0x7b ≤ c.toNat ∧ c.toNat ≤ 0x7e)

/-- `str::split_whitespace`. -/
def splitWs (s : String) : List String :=
  ((s.data.splitOnP isWs).filter (· ≠ [])).map String.mk

/-- `RagEngine::resolve_dynamic_fields` (src/rag/rag.rs lines 283-328);
`jw` is the strsim `jaro_winkler` collaborator. -/
def resolveDynamicFields (jw : String → String → Rat) (userQuestion : String)
    (availableFields : List String) : Option (List String) :=
  let q0 := strLower (String.mk
    (((userQuestion.data.reverse.dropWhile isAsciiPunct).reverse)))
  let q := match findSub " from ".data q0.data with
    | some pos => String.mk (q0.data.take pos)
    | none => q0
  let words0 := splitWs q
  let words := match words0 with
    | first :: rest =>
      if first ∈ ["list", "show", "give", "tell", "what", "find"] then rest
      else words0
    | [] => words0
  let term := (words.getLast?).getD ""
  let normTerm := String.mk
    (term.data.filter (fun c => ¬(c = '_' ∨ c = '-' ∨ c = ' ')))
  match availableFields.find? (fun f =>
      String.mk ((strLower f).data.filter (· ≠ '_')) == normTerm) with
  | some f => some [f]
  | none =>
    let best := availableFields.foldl
      (fun acc f =>
        let candidate := String.mk ((strLower f).data.filter (· ≠ '_'))
        let score := jw normTerm candidate
        if score > acc.2 then (some f, score) else acc)
      ((none : Option String), (0 : Rat))
    if best.2 ≥ 85 / 100 then best.1.map (fun f => [f]) else none

/-- The `end_date` key used by the recency filter: a missing or non-string
field sorts as `"0000-00-00"` (src/rag/rag.rs lines 234-243). -/
def endDateOf (doc : Json) : String :=
  ((doc.get "end_date").bind Json.asStr).getD "0000-00-00"

/-- The recency-filter comparator: `sort_by` with `b_date.cmp(a_date)`
orders `a` before `b` exactly when `endDate b ≤ endDate a` (descending). -/
def endDateLe (a b : RagHit) : Bool := decide (endDateOf b.doc ≤ endDateOf a.doc)

/-- The recency-filter step of `query_and_answer` (src/rag/rag.rs lines
225-252): for the three dated topics and a latest/recent/newest/current
question, stably sort the hits by `end_date` descending and keep only the
first. -/
def recencyStep (lowerQ finalTopic : String) (hits : List RagHit) :
    List RagHit :=
  if (finalTopic = "experience" ∨ finalTopic = "education" ∨
      finalTopic = "portfolio") ∧
     (strContains lowerQ "latest" ∨ strContains lowerQ "recent" ∨
      strContains lowerQ "newest" ∨ strContains lowerQ "current") then
    let sorted := hits.mergeSort endDateLe
    match sorted with
    | x :: _ :: _ => [x]
    | _ => sorted
  else hits

/-- `RagEngine::format_documents_for_prompt` (src/rag/rag.rs lines 85-119);
score and non-string-value rendering delegate to the std/serde formatting
collaborators. -/
def formatDocumentsForPrompt (fmtScore : Rat → String)
    (renderJson : Json → String) (hits : List RagHit) : String :=
  if hits.isEmpty then "No relevant documents found."
  else String.join (hits.map (fun hit =>
    "Document ID: " ++ hit.id ++ " (Score: " ++ fmtScore hit.score ++ ")\n" ++
    (match hit.doc with
     | .obj fields =>
       if fields.isEmpty then "  - (No fields retrieved for this document)\n"
       else String.join (fields.map (fun kv =>
         if kv.1 = "vector" ∨ kv.1 = "pdf" ∨ kv.1 = "describe_pdf_data" ∨
            kv.1 = "portfolio_detail_pdf_data" then ""
         else
           "  - " ++ kv.1 ++ ": " ++
           (match kv.2 with
            | .str s => s
            | v => renderJson v) ++ "\n"))
     | _ => "  - Document content is not a valid JSON object.\n") ++ "\n"))

/-- The four count keywords (src/rag/rag.rs lines 176-179). -/
def countKeywordHit (lowerQ : String) : Bool :=
  strContains lowerQ "count" ∨ strContains lowerQ "total" ∨
  strContains lowerQ "how many" ∨ strContains lowerQ "how much"

/-- `RagEngine::query_and_answer` (src/rag/rag.rs lines 121-281), with its
event trace.  Collaborator failures surface as the same wrapped messages as
the source's `RagEngineError`. -/
def queryAndAnswer (env : RagEnv) (args : RagQueryArgs)
    (userQuestion : String) : Except String String × List Ev :=
  match resolveTopic env userQuestion with
  | (.error e, evs) => (.error e, evs)
  | (.ok finalTopic, evs) =>
    let lowerQ := strLower userQuestion
    if countKeywordHit lowerQ ∧ finalTopic ≠ "" then
      match env.countDocuments finalTopic with
      | .error e =>
        (.error ("RagEngine Error: Count failed: " ++ e),
         evs ++ [Ev.countEv finalTopic])
      | .ok cnt => (.ok (toString cnt), evs ++ [Ev.countEv finalTopic])
    else
      match env.embed args.query with
      | .error e =>
        (.error ("RagEngine Error: Embedding failed: " ++ e),
         evs ++ [Ev.embedEv args.query])
      | .ok vec =>
        let availableFields :=
          (((env.indexSchemas.find? (fun s => s.name == finalTopic)).map
            (·.fields)).getD [])
        let selectedFields :=
          if env.useLlmQuery then
            (resolveDynamicFields env.jaroWinkler userQuestion
              availableFields).getD availableFields
          else availableFields
        let limit := args.limit.getD env.ragDefaultLimit
        match env.searchHybrid finalTopic userQuestion vec limit selectedFields with
        | .error e =>
          (.error e,
           evs ++ [Ev.embedEv args.query,
                   Ev.searchEv finalTopic userQuestion vec limit selectedFields])
        | .ok hits =>
          let hits' := recencyStep lowerQ finalTopic hits
          let docsText := formatDocumentsForPrompt env.fmtScore env.renderJson hits'
          let retrievedTopics := if hits'.isEmpty then "none" else finalTopic
          let evs' := evs ++ [Ev.embedEv args.query,
            Ev.searchEv finalTopic userQuestion vec limit selectedFields]
          match getRagFinalPrompt env.promptConfig env.schemaJsonPretty
              retrievedTopics docsText userQuestion with
          | .error e => (.error e.render, evs')
          | .ok finalPrompt =>
            match env.chat finalPrompt with
            | .error e =>
              (.error ("RagEngine Error: Final completion failed: " ++ e),
               evs' ++ [Ev.chatEv finalPrompt])
            | .ok answer => (.ok answer, evs' ++ [Ev.chatEv finalPrompt])

/-! ## C2 / C9 — agent pipeline (src/agent.rs) -/

/-- `format_history_for_prompt` (src/history/mod.rs lines 70-86). -/
def formatHistoryForPrompt (conversation : Conversation) : String :=
  if conversation.messages.isEmpty then ""
  else
    "Previous conversation:\n" ++
    String.join (conversation.messages.map (fun msg =>
      (if msg.role = "user" then "User"
       else if msg.role = "assistant" then "Assistant"
       else msg.role) ++ ": " ++ msg.content ++ "\n"))

/-- The agent's collaborators and configuration (src/agent.rs `AIAgent`).
The RAG engine shares the agent's chat client, embedding client and prompt
configuration (they are wired from the same `Arc`s in `AIAgent::new`), so
the agent's chat/intent calls go through `rag.chat` / `rag.promptConfig`.
`cacheQdrantTop` is the Qdrant cache server's top-1 answer for a query
embedding under the configured `score_threshold`. -/
structure AgentEnv where
  enableCache : Bool
  redisPresent : Bool
  redisStore : List (String × String)
  qdrantPresent : Bool
  cacheThreshold : Rat
  cacheQdrantTop : List Int → Option ScoredPoint
  embed : String → Except String (List Int)
  historyGet : String → Nat → Except String (List ChatMessage)
  historyAdd : String → String → String → Except String Unit
  rag : RagEnv
  ragDefaultLimit : Nat

/-- `HISTORY_FOR_PROMPT_LEN` (src/agent.rs line 37). -/
def HISTORY_FOR_PROMPT_LEN : Nat := 6

/-- `AIAgent::execute_llm_interaction` (src/agent.rs lines 411-451):
history fetch, intent classification, then RAG or general dispatch. -/
def executeLlmInteraction (env : AgentEnv) (conversationId message : String) :
    Except String String × List Ev :=
  match env.historyGet conversationId HISTORY_FOR_PROMPT_LEN with
  | .error e => (.error e, [Ev.histGetEv conversationId HISTORY_FOR_PROMPT_LEN])
  | .ok msgs =>
    let historyStr := formatHistoryForPrompt ⟨conversationId, msgs⟩
    let evs0 := [Ev.histGetEv conversationId HISTORY_FOR_PROMPT_LEN]
    match getIntentPrompt env.rag.promptConfig message with
    | .error e => (.error e.render, evs0)
    | .ok intentPrompt =>
      match env.rag.chat intentPrompt with
      | .error e => (.error e, evs0 ++ [Ev.chatEv intentPrompt])
      | .ok intentResponse =>
        let intentName := strTrim intentResponse
        let evs1 := evs0 ++ [Ev.chatEv intentPrompt]
        match (env.rag.promptConfig.intents.find?
            (fun p => p.1 == intentName)).map (·.2) with
        | none => (.error (PromptError.render (.IntentNotFound intentName)), evs1)
        | some intentDefinition =>
          if intentDefinition.action = "call_rag_tool" then
            let r := queryAndAnswer env.rag
              ⟨message, some env.ragDefaultLimit⟩ message
            (r.1, evs1 ++ r.2)
          else if intentDefinition.action = "general_llm_call" then
            let promptWithHistory := historyStr ++ "\n\nUser: " ++ message
            match env.rag.chat promptWithHistory with
            | .error e => (.error e, evs1 ++ [Ev.chatEv promptWithHistory])
            | .ok resp => (.ok resp, evs1 ++ [Ev.chatEv promptWithHistory])
          else
            (.error (PromptError.render (.ActionError
              ("Action \x27" ++ intentDefinition.action ++ "\x27 is not implemented."))),
             evs1)

/-- `AIAgent::check_qdrant_cache` (src/agent.rs lines 347-392): embed the
normalized message, ask the cache collection for the top point under the
score threshold, then apply the hit logic of `agentQdrantHit`. -/
def checkQdrantCache (env : AgentEnv) (normalizedMessage : String) :
    Except String (Option (String × List Int)) × List Ev :=
  if env.enableCache ∧ env.qdrantPresent then
    match env.embed normalizedMessage with
    | .error e => (.error e, [Ev.embedEv normalizedMessage])
    | .ok vec =>
      (.ok (agentQdrantHit (env.cacheQdrantTop vec) env.cacheThreshold vec),
       [Ev.embedEv normalizedMessage, Ev.qdrantSearchEv vec])
  else (.ok none, [])

/-- The cache-miss tail of `process_message` (src/agent.rs lines 539-564):
LLM interaction, unconditional Redis prime, tier-B write reusing a lookup
embedding when one is available, then the two history appends (whose errors
now propagate). -/
def processMessageMiss (env : AgentEnv) (conversationId message
    normalized : String) (maybeEmbedding : Option (List Int))
    (base : List Ev) : Except String String × List Ev :=
  match executeLlmInteraction env conversationId message with
  | (.error e, levs) => (.error e, base ++ levs)
  | (.ok responseContent, levs) =>
    let evsLlm := base ++ levs
    let primeEvs :=
      if env.redisPresent then [Ev.redisSetEv normalized responseContent]
      else []
    match (if env.enableCache then
        (match maybeEmbedding with
         | some e => (Except.ok e, ([] : List Ev))
         | none =>
           match env.embed normalized with
           | .error e => (.error e, [Ev.embedEv normalized])
           | .ok emb => (.ok emb, [Ev.embedEv normalized]))
      else (Except.ok ([] : List Int), ([] : List Ev))) with
    | (.error e, embEvs) => (.error e, evsLlm ++ primeEvs ++ embEvs)
    | (.ok embeddingToUse, embEvs) =>
      let upsertEvs :=
        if env.enableCache ∧ env.qdrantPresent ∧ embeddingToUse ≠ [] then
          [Ev.qdrantUpsertEv normalized responseContent embeddingToUse]
        else []
      let cacheEvs := if env.enableCache then primeEvs ++ embEvs ++ upsertEvs else []
      match env.historyAdd conversationId "user" message with
      | .error e =>
        (.error e, evsLlm ++ cacheEvs ++ [Ev.histAddEv conversationId "user" message])
      | .ok () =>
        match env.historyAdd conversationId "assistant" responseContent with
        | .error e =>
          (.error e, evsLlm ++ cacheEvs ++
            [Ev.histAddEv conversationId "user" message,
             Ev.histAddEv conversationId "assistant" responseContent])
        | .ok () =>
          (.ok responseContent, evsLlm ++ cacheEvs ++
            [Ev.histAddEv conversationId "user" message,
             Ev.histAddEv conversationId "assistant" responseContent])

/-- `AIAgent::process_message` (src/agent.rs lines 486-565). -/
def processMessage (env : AgentEnv) (conversationId message : String) :
    Except String String × List Ev :=
  let normalized := strLower (strTrim message)
  let redisAttempted := env.enableCache ∧ env.redisPresent
  let redisHit : Option String :=
    if redisAttempted then
      (env.redisStore.find? (fun kv => kv.1 == normalized)).map (·.2)
    else none
  let redisEvs : List Ev :=
    if redisAttempted then [Ev.redisGetEv normalized] else []
  match redisHit with
  | some cachedResponse =>
    (.ok cachedResponse,
     redisEvs ++ [Ev.histAddEv conversationId "user" message,
                  Ev.histAddEv conversationId "assistant" cachedResponse])
  | none =>
    match checkQdrantCache env normalized with
    | (.error e, qEvs) => (.error e, redisEvs ++ qEvs)
    | (.ok qdrantHit, qEvs) =>
      let base := redisEvs ++ qEvs
      match qdrantHit with
      | some (cachedResponse, embeddingUsed) =>
        if cachedResponse ≠ "" then
          let primeEvs :=
            if env.redisPresent then [Ev.redisSetEv normalized cachedResponse]
            else []
          (.ok cachedResponse,
           base ++ primeEvs ++
             [Ev.histAddEv conversationId "user" message,
              Ev.histAddEv conversationId "assistant" cachedResponse])
        else
          processMessageMiss env conversationId message normalized
            (some embeddingUsed) base
      | none =>
        processMessageMiss env conversationId message normalized none base

/-! ## C10 — `clean_response_text` (src/server/websocket.rs lines 585-618) -/

/-- The literal-token removal pass (src/server/websocket.rs lines 589-594),
in source order. -/
def replaceLits (l : List Char) : List Char :=
  replaceAll "**".data [] (
  replaceAll "**Final Answer:**".data [] (
  replaceAll "\\</strong>".data [] (
  replaceAll "\\<strong>".data [] (
  replaceAll "\\text\x7b".data [] (
  replaceAll "\\boxed\x7b".data [] l)))))

/-- The five meta-commentary markers (src/server/websocket.rs lines
597-603), in source order. -/
def metaPatterns : List (List Char) :=
  ["The user\x27s input is".data, "The appropriate response".data,
   "Final Answer:".data, "In response to".data, "I\x27ll respond with".data]

/-- A blank line. -/
def nl2 : List Char := ['\n', '\n']

/-- One iteration of the meta-commentary loop (src/server/websocket.rs
lines 605-612): if the pattern occurs and a blank line follows it, drop
everything up to and including that blank line. -/
def metaCutOne (p t : List Char) : List Char :=
  match findSub p t with
  | some pos =>
    match findSub nl2 (t.drop pos) with
    | some endPos => t.drop (pos + endPos + 2)
    | none => t
  | none => t

/-- The full meta-commentary loop over the five patterns. -/
def metaCut (t : List Char) : List Char :=
  metaPatterns.foldl (fun acc p => metaCutOne p acc) t

/-- The final whitespace pass (line 615): one `replace("\n\n\n", "\n\n")`
sweep and a trim. -/
def collapseAndTrim (t : List Char) : List Char :=
  trimL (replaceAll "\n\n\n".data "\n\n".data t)

/-- `clean_response_text` (src/server/websocket.rs lines 585-618). -/
def cleanResponseText (s : String) : String :=
  String.mk (collapseAndTrim (metaCut (replaceLits s.data)))

/-! # Theorems -/

/-- **C3 (amended).** Loading a `PromptConfig` (local file or remote-config
JSON, both of which validate through `load_prompts_from_str`) succeeds for a
syntactically valid config exactly when the four keys checked by
`_validate` are present: `intent_classification`, `rag_topic_inference` and
`rag_dynamic_query_generation` in `query_templates`, and `rag_final_answer`
in `response_templates`.  `fallback_topic_resolver` is *not* required at
load time (contrary to the original claim); its absence only surfaces when
the fallback prompt is rendered during a RAG turn. -/
theorem C3_prompt_validation (c : PromptConfig) :
    loadParsedPrompts c = .ok c ↔
      (containsKey c.query_templates "intent_classification" = true ∧
       containsKey c.query_templates "rag_topic_inference" = true ∧
       containsKey c.query_templates "rag_dynamic_query_generation" = true ∧
       containsKey c.response_templates "rag_final_answer" = true) := by
  unfold loadParsedPrompts PromptConfig.validate
  split_ifs <;> simp_all

/-- **C3, counterexample.** A config that contains the four checked keys but
*lacks* `fallback_topic_resolver` loads successfully, refuting the claim
that a config missing any of the five named keys is rejected at load
time. -/
theorem C3_counterexample :
    (containsKey (PromptConfig.mk []
        [("intent_classification", "a"), ("rag_topic_inference", "b"),
         ("rag_dynamic_query_generation", "c")]
        [("rag_final_answer", "d")]).query_templates
        "fallback_topic_resolver" = false) ∧
    (containsKey (PromptConfig.mk []
        [("intent_classification", "a"), ("rag_topic_inference", "b"),
         ("rag_dynamic_query_generation", "c")]
        [("rag_final_answer", "d")]).response_templates
        "fallback_topic_resolver" = false) ∧
    loadParsedPrompts (PromptConfig.mk []
        [("intent_classification", "a"), ("rag_topic_inference", "b"),
         ("rag_dynamic_query_generation", "c")]
        [("rag_final_answer", "d")]) =
      .ok (PromptConfig.mk []
        [("intent_classification", "a"), ("rag_topic_inference", "b"),
         ("rag_dynamic_query_generation", "c")]
        [("rag_final_answer", "d")]) :=
  ⟨rfl, rfl, rfl⟩

/-- **C4.** A tier-B lookup treats the top-1 result as a hit exactly when
its score is ≥ the configured threshold τ *and* its payload's extraction
step succeeds: with `score ≥ τ` (equality included) both
`cache::qdrant::search` and the hit logic of `AIAgent::check_qdrant_cache`
return exactly the extracted response, and with `score < τ` both miss.
For `search` the extraction is `extractResponse` (a string `response`
payload field, with a `CachePayload` decode as fallback); for the agent
path it is the `CachePayload` decode itself. -/
theorem C4_semantic_threshold (pt : ScoredPoint) (emb : List Int) (τ : Rat) :
    (τ ≤ pt.score →
      cacheQdrantSearch true (some pt) emb τ =
        (extractResponse pt.payload).map (fun r => (r, emb)) ∧
      agentQdrantHit (some pt) τ emb =
        (parseCachePayload pt.payload).map (fun cp => (cp.response, emb))) ∧
    (pt.score < τ →
      cacheQdrantSearch true (some pt) emb τ = none ∧
      agentQdrantHit (some pt) τ emb = none) := by
  constructor
  · intro h
    constructor
    · simp only [cacheQdrantSearch, extractResponse, not_true_eq_false,
        if_false, if_neg (not_lt.mpr h)]
      cases hv : pt.payload.get "response" with
      | none =>
        cases hp : parseCachePayload pt.payload <;> simp
      | some v =>
        cases v with
        | s s => simp
        | i n => cases hp : parseCachePayload pt.payload <;> simp
        | other => cases hp : parseCachePayload pt.payload <;> simp
    · simp only [agentQdrantHit, if_pos h]
      cases hp : parseCachePayload pt.payload <;> simp
  · intro h
    constructor
    · simp only [cacheQdrantSearch, not_true_eq_false, if_false, if_pos h]
    · simp only [agentQdrantHit, if_neg (not_le.mpr h)]

/-- **C4, witness.** A concrete point with score exactly τ = 1/2 is a hit
on both paths, and a point with score τ − 1/100 is a miss. -/
theorem C4_semantic_threshold_witness :
    cacheQdrantSearch true
      (some ⟨1/2, [("normalized_prompt", QVal.s "q"), ("response", QVal.s "hi")]⟩)
      [1] (1/2) = some ("hi", [1]) ∧
    agentQdrantHit
      (some ⟨1/2, [("normalized_prompt", QVal.s "q"), ("response", QVal.s "hi")]⟩)
      (1/2) [1] = some ("hi", [1]) ∧
    cacheQdrantSearch true
      (some ⟨49/100, [("normalized_prompt", QVal.s "q"), ("response", QVal.s "hi")]⟩)
      [1] (1/2) = none := by
  have h1 := (C4_semantic_threshold
    ⟨1/2, [("normalized_prompt", QVal.s "q"), ("response", QVal.s "hi")]⟩
    [1] (1/2)).1 (le_refl _)
  have h2 := (C4_semantic_threshold
    ⟨49/100, [("normalized_prompt", QVal.s "q"), ("response", QVal.s "hi")]⟩
    [1] (1/2)).2 (by norm_num)
  refine ⟨?_, ?_, h2.1⟩
  · rw [h1.1]; rfl
  · rw [h1.2]; rfl

/-- **C1.** With a non-empty server secret configured, the handshake
callback rejects with HTTP 401 when `ts`/`sig` (or their
`X-Api-Ts`/`X-Api-Sign` aliases) are missing, when `|now − ts| > 300`, or
when `sig` differs from the (lowercase hex) HMAC-SHA256 of the `ts` string
under the secret; it accepts exactly when both parameters are present, the
timestamp is in range, and the signature matches.  With no secret (or an
empty one) every handshake is accepted.  `hmacHex` is the
`hex::encode(HMAC-SHA256(·,·))` collaborator; the `|now| ≤ 2^62` bound
restricts the statement to the domain where the model's exact integer
arithmetic coincides with the source's `i64` arithmetic. -/
theorem C1_handshake_auth (hmacHex : String → String → String)
    (secret : String) (params : List (String × String)) (now : Int)
    (hsec : secret ≠ "") (_hnow : |now| ≤ 2 ^ 62) :
    ((getTsParam params = none ∨ getSigParam params = none) →
      authCallback hmacHex (some secret) params now =
        .rejected 401 "missing ts/sig") ∧
    (∀ tsStr sigStr, getTsParam params = some tsStr →
      getSigParam params = some sigStr →
      ((authCallback hmacHex (some secret) params now = .accepted ↔
        (|now - (parseI64 tsStr).getD 0| ≤ 300 ∧
         hmacHex secret tsStr = sigStr)) ∧
       (300 < |now - (parseI64 tsStr).getD 0| →
        authCallback hmacHex (some secret) params now =
          .rejected 401 "timestamp out of range") ∧
       (|now - (parseI64 tsStr).getD 0| ≤ 300 →
        hmacHex secret tsStr ≠ sigStr →
        authCallback hmacHex (some secret) params now =
          .rejected 401 "bad signature"))) ∧
    (authCallback hmacHex none params now = .accepted ∧
     authCallback hmacHex (some "") params now = .accepted) := by
  refine ⟨?_, ?_, ?_, ?_⟩
  · rintro (hts | hsig)
    · cases hsig : getSigParam params <;> simp [authCallback, hsec, hts, hsig]
    · cases hts : getTsParam params <;> simp [authCallback, hsec, hts, hsig]
  · intro tsStr sigStr hts hsig
    simp only [authCallback, if_neg hsec, hts, hsig]
    refine ⟨?_, ?_, ?_⟩
    · split_ifs with h1 h2
      · simp [not_le.mpr h1]
      · simp [not_lt.mp h1, h2]
      · simp [h2]
    · intro h1
      rw [if_pos h1]
    · intro h1 h2
      rw [if_neg (not_lt.mpr h1), if_neg h2]
  · simp [authCallback]
  · simp [authCallback]

/-- **C1, witness.** With secret `"s"` and `now = 200`: a handshake with
`ts = "100"` and a matching signature is accepted; one with `ts = "700"`
(out of the 300-second window) is rejected 401; one missing `sig` is
rejected 401; and with no secret configured the same handshake is
accepted. -/
theorem C1_handshake_auth_witness :
    authCallback (fun s t => s ++ ":" ++ t) (some "s")
      [("ts", "100"), ("sig", "s:100")] 200 = .accepted ∧
    authCallback (fun s t => s ++ ":" ++ t) (some "s")
      [("ts", "700"), ("sig", "s:700")] 200 =
        .rejected 401 "timestamp out of range" ∧
    authCallback (fun s t => s ++ ":" ++ t) (some "s")
      [("ts", "100")] 200 = .rejected 401 "missing ts/sig" ∧
    authCallback (fun s t => s ++ ":" ++ t) none
      [("ts", "100")] 200 = .accepted := by
  have h1 := C1_handshake_auth (fun s t => s ++ ":" ++ t) "s"
    [("ts", "100"), ("sig", "s:100")] 200 (by decide) (by decide)
  have h2 := C1_handshake_auth (fun s t => s ++ ":" ++ t) "s"
    [("ts", "700"), ("sig", "s:700")] 200 (by decide) (by decide)
  have h3 := C1_handshake_auth (fun s t => s ++ ":" ++ t) "s"
    [("ts", "100")] 200 (by decide) (by decide)
  refine ⟨?_, ?_, ?_, h3.2.2.1⟩
  · exact ((h1.2.1 "100" "s:100" (by decide) (by decide)).1).mpr
      ⟨by decide, rfl⟩
  · exact (h2.2.1 "700" "s:700" (by decide) (by decide)).2.1 (by decide)
  · exact h3.1 (Or.inr (by decide))

/-- The envelope-unwrap leaves a value untouched when the value is not
envelope-shaped (does not start with `\x7b`, does not contain
`"response"`, or does not decode to an object with a string `response`
field). -/
theorem envelopeUnwrap_eq_self (parseJson : String → Option Json) (v : String)
    (h : ¬(startsWithBrace v = true ∧ containsResponseKey v = true ∧
      ((parseJson v).bind (fun j => (j.get "response").bind Json.asStr)).isSome
        = true)) : envelopeUnwrap parseJson v = v := by
  unfold envelopeUnwrap
  split_ifs with hb
  · cases hj : parseJson v with
    | none => simp
    | some j =>
      cases hr : (j.get "response").bind Json.asStr with
      | none => simp [hr]
      | some r =>
        exact absurd ⟨hb.1, hb.2, by rw [hj]; simp [hr]⟩ h
  · rfl

/-- **C5 (amended).** With the exact tier reachable,
`cache::update(k,v,e)` followed by `cache::check(k)` returns
`Some((v', []))` where `v'` is the envelope-unwrap of `v` — so the written
response is read back verbatim for every `v` that the unwrap step leaves
alone, but a `v` that itself looks like a JSON envelope (starts with
`\x7b`, contains `"response"`, and decodes to an object with a string
`response` field) is read back as its *nested* response instead of
itself, refuting the unconditional round-trip of the original claim. -/
theorem C5_cache_roundtrip (parseJson : String → Option Json)
    (embed : String → Except String (List Int)) (clients : CacheClients)
    (k v : String) (e : List Int) (hr : clients.redisPresent = true) :
    cacheCheck parseJson embed (cacheUpdate clients k v e) k =
      .ok (some (envelopeUnwrap parseJson v, [])) ∧
    (¬(startsWithBrace v = true ∧ containsResponseKey v = true ∧
        ((parseJson v).bind (fun j => (j.get "response").bind Json.asStr)).isSome
          = true) →
      cacheCheck parseJson embed (cacheUpdate clients k v e) k =
        .ok (some (v, []))) := by
  have hget : cacheRedisGet (cacheUpdate clients k v e) k = some v := by
    unfold cacheUpdate cacheQdrantUpsert cacheRedisSet cacheRedisGet kvSet
    rw [if_pos hr]
    split_ifs <;> simp
  have h1 : cacheCheck parseJson embed (cacheUpdate clients k v e) k =
      .ok (some (envelopeUnwrap parseJson v, [])) := by
    unfold cacheCheck
    rw [hget]
  exact ⟨h1, fun h => by rw [h1, envelopeUnwrap_eq_self parseJson v h]⟩

/-- **C5, witness.** A concrete non-envelope value round-trips: after
`update("k", "hello", [1])`, `check("k")` returns `Some(("hello", []))`. -/
theorem C5_cache_roundtrip_witness :
    cacheCheck (fun _ => none) (fun _ => .ok [])
      (cacheUpdate ⟨true, [], false, [], fun _ => none, 1/2, 0⟩
        "k" "hello" [1]) "k" = .ok (some ("hello", [])) :=
  (C5_cache_roundtrip (fun _ => none) (fun _ => .ok [])
    ⟨true, [], false, [], fun _ => none, 1/2, 0⟩ "k" "hello" [1] rfl).2
    (by simp)

/-- **C5, counterexample.** For `v = "\x7b\"response\":\"x\"\x7d"` (a
response that is itself envelope-shaped), `update(k,v,e)` followed by
`check(k)` returns the nested `"x"`, not `v`: the round-trip claimed for
*every* response string fails.  The JSON-parse collaborator is instantiated
with exactly the value `serde_json` produces on this input. -/
theorem C5_cache_roundtrip_counterexample :
    cacheCheck
      (fun s => if s = "\x7b\"response\":\"x\"\x7d"
        then some (Json.obj [("response", Json.str "x")]) else none)
      (fun _ => .ok [])
      (cacheUpdate ⟨true, [], false, [], fun _ => none, 1/2, 0⟩
        "k" "\x7b\"response\":\"x\"\x7d" [1]) "k" = .ok (some ("x", [])) ∧
    ("x" : String) ≠ "\x7b\"response\":\"x\"\x7d" :=
  ⟨rfl, by decide⟩

/-- With `limit ≥ 1` the Redis history read `LRANGE key 0 (limit-1)`
returns a prefix of the stored list of at most `limit` entries. -/
theorem lrange_zero_take {α : Type} (l : List α) (n : Nat) (hn : 1 ≤ n) :
    ∃ k, k ≤ n ∧ lrange l 0 ((n : Int) - 1) = l.take k := by
  have hstop : ¬((n : Int) - 1 < 0) := by omega
  have hstart : ¬((0 : Int) < 0) := by omega
  unfold lrange
  simp only [if_neg hstop, if_neg hstart, max_self, Int.toNat_zero, List.drop_zero]
  by_cases hse : (0 : Int) > min ((n : Int) - 1) ((l.length : Int) - 1)
  · exact ⟨0, Nat.zero_le n, by rw [if_pos hse]; simp⟩
  · refine ⟨(min ((n : Int) - 1) ((l.length : Int) - 1) - 0 + 1).toNat, ?_,
      by rw [if_neg hse]⟩
    have h1 := min_le_left ((n : Int) - 1) ((l.length : Int) - 1)
    omega

/-- The vector backing's final sort-and-truncate always yields at most
`limit` messages in non-decreasing timestamp order. -/
theorem sortAndTruncate_bounded_sorted (limit : Nat) (msgs : List ChatMessage) :
    (sortAndTruncate limit msgs).length ≤ limit ∧
    (sortAndTruncate limit msgs).Pairwise
      (fun a b => a.timestamp ≤ b.timestamp) := by
  unfold sortAndTruncate
  dsimp only
  have hs : (msgs.mergeSort (fun a b => decide (a.timestamp ≤ b.timestamp))).Pairwise
      (fun a b => a.timestamp ≤ b.timestamp) := by
    have := @List.sorted_mergeSort ChatMessage
      (fun a b : ChatMessage => decide (a.timestamp ≤ b.timestamp))
      (fun a b c hab hbc => by
        simp only [decide_eq_true_eq] at *; omega)
      (fun a b => by
        simp only [Bool.or_eq_true, decide_eq_true_eq]; omega)
      msgs
    exact this.imp (fun h => of_decide_eq_true h)
  constructor
  · split_ifs with hlen
    · simp only [List.length_drop]
      omega
    · omega
  · split_ifs with hlen
    · exact hs.sublist (List.drop_sublist _ _)
    · exact hs

/-- **C7 (amended).** For every conversation id and every limit `n ≥ 1`,
`get_conversation` returns at most `n` messages in non-decreasing timestamp
order, under both backings: the Redis keyed-list backing (whose stored list,
populated newest-first by `add_message`, carries non-increasing timestamps)
and the Qdrant vector backing (for any scroll/search replies, with the
scroll honouring its requested `recency_limit`).  At `n = 0` the property
fails on the Redis backing (see the counterexample): `LRANGE 0 -1` returns
the whole list. -/
theorem C7_history_bounded_sorted
    (stored : List (Option ChatMessage)) (convId : String) (limit : Nat)
    (recencyResult semanticResult : List QHPoint)
    (hn : 1 ≤ limit)
    (hstored : (stored.filterMap id).Pairwise
      (fun a b => b.timestamp ≤ a.timestamp))
    (_hscroll : recencyResult.length ≤ max (limit / 2) 1) :
    ((getConversationRedis stored convId limit).messages.length ≤ limit ∧
     (getConversationRedis stored convId limit).messages.Pairwise
        (fun a b => a.timestamp ≤ b.timestamp)) ∧
    ((getConversationQdrant recencyResult semanticResult convId
        limit).messages.length ≤ limit ∧
     (getConversationQdrant recencyResult semanticResult convId
        limit).messages.Pairwise (fun a b => a.timestamp ≤ b.timestamp)) := by
  obtain ⟨k, hk, hrange⟩ := lrange_zero_take stored limit hn
  have hredis :
      (getConversationRedis stored convId limit).messages =
        ((stored.take k).filterMap id).reverse := by
    unfold getConversationRedis
    rw [hrange]
  constructor
  · constructor
    · rw [hredis]
      calc ((stored.take k).filterMap id).reverse.length
          ≤ (stored.take k).length := by
            rw [List.length_reverse]; exact List.length_filterMap_le _ _
        _ ≤ k := List.length_take_le _ _
        _ ≤ limit := hk
    · rw [hredis]
      refine List.pairwise_reverse.2 ?_
      exact hstored.sublist ((List.take_sublist k stored).filterMap id)
  · exact sortAndTruncate_bounded_sorted _ _

/-- **C7, counterexample.** At `limit = 0`, the Redis backing's
`LRANGE key 0 -1` returns the whole stored list: with two stored messages
the call returns 2 messages, refuting "at most n" for every limit n. -/
theorem C7_counterexample :
    (getConversationRedis
      [some ⟨"assistant", "b", 2⟩, some ⟨"user", "a", 1⟩] "c" 0).messages =
      [⟨"user", "a", 1⟩, ⟨"assistant", "b", 2⟩] ∧
    ¬((getConversationRedis
      [some ⟨"assistant", "b", 2⟩, some ⟨"user", "a", 1⟩]
        "c" 0).messages.length ≤ 0) := by
  constructor
  · rfl
  · decide

/-- **C7, witness.** The amended claim applied at `limit = 1` with two
stored Redis messages and a one-point Qdrant scroll. -/
theorem C7_history_bounded_sorted_witness :
    ((getConversationRedis
        [some ⟨"assistant", "b", 2⟩, some ⟨"user", "a", 1⟩]
        "c" 1).messages.length ≤ 1 ∧
     (getConversationRedis
        [some ⟨"assistant", "b", 2⟩, some ⟨"user", "a", 1⟩]
        "c" 1).messages.Pairwise (fun a b => a.timestamp ≤ b.timestamp)) ∧
    ((getConversationQdrant
        [⟨"p1", [("role", QVal.s "user"), ("content", QVal.s "a"),
          ("timestamp", QVal.i 1)]⟩] [] "c" 1).messages.length ≤ 1 ∧
     (getConversationQdrant
        [⟨"p1", [("role", QVal.s "user"), ("content", QVal.s "a"),
          ("timestamp", QVal.i 1)]⟩] [] "c" 1).messages.Pairwise
        (fun a b => a.timestamp ≤ b.timestamp)) :=
  C7_history_bounded_sorted
    [some ⟨"assistant", "b", 2⟩, some ⟨"user", "a", 1⟩] "c" 1
    [⟨"p1", [("role", QVal.s "user"), ("content", QVal.s "a"),
      ("timestamp", QVal.i 1)]⟩] []
    (by decide) (by decide) (by decide)

/-- **C8.** When the resolved topic is `experience`, `education` or
`portfolio` and the lowercased question contains `latest`, `recent`,
`newest` or `current`, the hits are stably sorted by their `end_date`
payload descending (a missing or non-string date sorting as
`"0000-00-00"`) and only the single top hit is kept: the step returns
exactly the first element of the sorted list, and any kept hit is one of
the original hits with a maximal `end_date`. -/
theorem C8_recency_filter (lowerQ finalTopic : String) (hits : List RagHit)
    (htopic : finalTopic = "experience" ∨ finalTopic = "education" ∨
      finalTopic = "portfolio")
    (hkw : strContains lowerQ "latest" = true ∨
      strContains lowerQ "recent" = true ∨
      strContains lowerQ "newest" = true ∨
      strContains lowerQ "current" = true) :
    recencyStep lowerQ finalTopic hits = (hits.mergeSort endDateLe).take 1 ∧
    ∀ top ∈ recencyStep lowerQ finalTopic hits,
      top ∈ hits ∧ ∀ h ∈ hits, endDateOf h.doc ≤ endDateOf top.doc := by
  have hsorted : (hits.mergeSort endDateLe).Pairwise
      (fun a b => endDateLe a b = true) :=
    @List.sorted_mergeSort RagHit endDateLe
      (fun a b c hab hbc => by
        simp only [endDateLe, decide_eq_true_eq] at *
        exact le_trans hbc hab)
      (fun a b => by
        simp only [endDateLe, Bool.or_eq_true, decide_eq_true_eq]
        exact le_total _ _)
      hits
  have hperm := List.mergeSort_perm hits endDateLe
  have hmain : recencyStep lowerQ finalTopic hits =
      (hits.mergeSort endDateLe).take 1 := by
    unfold recencyStep
    rw [if_pos ⟨htopic, hkw⟩]
    dsimp only
    cases hs : hits.mergeSort endDateLe with
    | nil => rfl
    | cons x tl => cases tl <;> rfl
  refine ⟨hmain, ?_⟩
  rw [hmain]
  intro top htop
  cases hs : hits.mergeSort endDateLe with
  | nil => rw [hs] at htop; simp at htop
  | cons x rest =>
    rw [hs] at htop
    simp only [List.take_succ_cons, List.take_zero, List.mem_singleton] at htop
    subst htop
    have hson := hsorted
    rw [hs] at hson
    have hx : ∀ z ∈ rest, endDateLe top z = true := (List.pairwise_cons.1 hson).1
    constructor
    · have : top ∈ hits.mergeSort endDateLe := by
        rw [hs]; exact List.mem_cons_self top rest
      exact hperm.mem_iff.1 this
    · intro h hh
      have hmem : h ∈ top :: rest := by
        rw [← hs]; exact hperm.mem_iff.2 hh
      rcases List.mem_cons.1 hmem with rfl | hmem'
      · exact le_refl _
      · have := hx h hmem'
        simpa [endDateLe, decide_eq_true_eq] using this

/-- **C8, witness.** Two `experience` hits with end dates 2020 and 2023 and
the question `"the latest role"`: the step keeps exactly the 2023 hit. -/
theorem C8_recency_filter_witness :
    recencyStep "the latest role" "experience"
      [⟨1, "a", Json.obj [("end_date", Json.str "2020-01-01")]⟩,
       ⟨1, "b", Json.obj [("end_date", Json.str "2023-01-01")]⟩] =
      (([⟨1, "a", Json.obj [("end_date", Json.str "2020-01-01")]⟩,
         ⟨1, "b", Json.obj [("end_date", Json.str "2023-01-01")]⟩] :
          List RagHit).mergeSort endDateLe).take 1 ∧
    (([⟨1, "a", Json.obj [("end_date", Json.str "2020-01-01")]⟩,
       ⟨1, "b", Json.obj [("end_date", Json.str "2023-01-01")]⟩] :
        List RagHit).mergeSort endDateLe).take 1 =
      [⟨1, "b", Json.obj [("end_date", Json.str "2023-01-01")]⟩] :=
  ⟨(C8_recency_filter "the latest role" "experience" _
      (Or.inl rfl) (Or.inl (by decide))).1,
   by simp +decide [List.mergeSort, endDateLe, endDateOf, Json.get, Json.asStr]⟩

/-- A successful topic resolution yields a non-empty topic (it equals the
name of a known schema and passed the emptiness guard), and its event trace
consists solely of chat completions. -/
theorem resolveTopic_ok (env : RagEnv) (q t : String) (evs : List Ev)
    (hres : resolveTopic env q = (.ok t, evs)) :
    t ≠ "" ∧ ∀ ev ∈ evs, ∃ p, ev = Ev.chatEv p := by
  unfold resolveTopic at hres
  split at hres
  · exact absurd (congrArg Prod.fst hres) (by simp)
  · split at hres
    · exact absurd (congrArg Prod.fst hres) (by simp)
    · dsimp only at hres
      split at hres
      · split at hres
        · exact absurd (congrArg Prod.fst hres) (by simp)
        · split at hres
          · exact absurd (congrArg Prod.fst hres) (by simp)
          · split at hres
            · exact absurd (congrArg Prod.fst hres) (by simp)
            · rename_i hguard2
              have h1 := congrArg Prod.fst hres
              have h2 := congrArg Prod.snd hres
              simp only at h1 h2
              obtain rfl := Except.ok.inj h1
              subst h2
              refine ⟨fun hempty => hguard2 (Or.inl hempty), ?_⟩
              intro ev hev
              simp only [List.mem_cons, List.not_mem_nil, or_false] at hev
              rcases hev with rfl | rfl
              · exact ⟨_, rfl⟩
              · exact ⟨_, rfl⟩
      · rename_i hguard
        have h1 := congrArg Prod.fst hres
        have h2 := congrArg Prod.snd hres
        simp only at h1 h2
        obtain rfl := Except.ok.inj h1
        subst h2
        refine ⟨fun hempty => hguard (Or.inl hempty), ?_⟩
        intro ev hev
        simp only [List.mem_cons, List.not_mem_nil, or_false] at hev
        rcases hev with rfl
        exact ⟨_, rfl⟩

/-- **C6.** When the lowercased question contains `count`, `total`,
`how many` or `how much` and a topic is resolved, `query_and_answer`
returns the decimal string of the topic index's document count, and after
topic resolution it performs only the count: the complete trace is the
resolution's chat calls followed by one count call — no chat completion,
no embedding and no hybrid search happen afterwards. -/
theorem C6_count_shortcut (env : RagEnv) (args : RagQueryArgs)
    (userQuestion t : String) (evs : List Ev) (c : Nat)
    (hres : resolveTopic env userQuestion = (.ok t, evs))
    (hkw : countKeywordHit (strLower userQuestion) = true)
    (hcount : env.countDocuments t = .ok c) :
    queryAndAnswer env args userQuestion =
      (.ok (toString c), evs ++ [Ev.countEv t]) ∧
    (∀ s, Ev.embedEv s ∉ evs ++ [Ev.countEv t]) ∧
    (∀ topic q e l f, Ev.searchEv topic q e l f ∉ evs ++ [Ev.countEv t]) ∧
    (∀ p, Ev.chatEv p ∈ evs ++ [Ev.countEv t] → Ev.chatEv p ∈ evs) := by
  obtain ⟨hne, hchat⟩ := resolveTopic_ok env userQuestion t evs hres
  refine ⟨?_, ?_, ?_, ?_⟩
  · unfold queryAndAnswer
    rw [hres]
    dsimp only
    rw [if_pos ⟨hkw, hne⟩, hcount]
  · intro s hs
    rcases List.mem_append.1 hs with h | h
    · obtain ⟨p, hp⟩ := hchat _ h
      exact Ev.noConfusion hp
    · simp at h
  · intro topic q e l f hs
    rcases List.mem_append.1 hs with h | h
    · obtain ⟨p, hp⟩ := hchat _ h
      exact Ev.noConfusion hp
    · simp at h
  · intro p hp
    rcases List.mem_append.1 hp with h | h
    · exact h
    · simp at h

/-- **C6, witness.** A concrete environment whose topic-inference chat
resolves `"projects"` and whose store holds 7 documents: the question
`"how many projects?"` yields exactly `"7"` with trace
`[chat, count]`. -/
theorem C6_count_shortcut_witness :
    queryAndAnswer
      ⟨fun _ => .ok "projects", fun _ => .ok [], fun _ _ _ _ _ => .ok [],
       fun _ => .ok 7, fun _ _ => 0, fun _ => "", fun _ => "", "", "",
       [⟨"projects", ["name"]⟩],
       ⟨[], [("rag_topic_inference", "\x7buser_question\x7d")], []⟩, 5, false⟩
      ⟨"how many projects?", some 5⟩ "how many projects?" =
      (.ok "7", [Ev.chatEv "how many projects?", Ev.countEv "projects"]) :=
  (C6_count_shortcut
    ⟨fun _ => .ok "projects", fun _ => .ok [], fun _ _ _ _ _ => .ok [],
     fun _ => .ok 7, fun _ _ => 0, fun _ => "", fun _ => "", "", "",
     [⟨"projects", ["name"]⟩],
     ⟨[], [("rag_topic_inference", "\x7buser_question\x7d")], []⟩, 5, false⟩
    ⟨"how many projects?", some 5⟩ "how many projects?" "projects"
    [Ev.chatEv "how many projects?"] 7 (by rfl) (by decide) (by rfl)).1

/-- **C2 (amended).** The cache-population path performs no emptiness
check: on a full cache miss (tier A misses, tier B returns no point),
whatever response the LLM interaction produced — the empty string included —
is written unconditionally to the exact tier and, when a Qdrant client is
present and the lookup embedding is non-empty, to the semantic tier.  Only
the semantic *read* path guards against empty cached responses. -/
theorem C2_cache_write_unfiltered (env : AgentEnv)
    (conversationId message r : String) (e : List Int) (levs : List Ev)
    (henable : env.enableCache = true)
    (hredis : env.redisPresent = true)
    (hqdrant : env.qdrantPresent = true)
    (hmiss : env.redisStore.find?
      (fun kv => kv.1 == strLower (strTrim message)) = none)
    (hembed : env.embed (strLower (strTrim message)) = .ok e)
    (htop : env.cacheQdrantTop e = none)
    (hllm : executeLlmInteraction env conversationId message = (.ok r, levs))
    (hhist1 : env.historyAdd conversationId "user" message = .ok ())
    (hhist2 : env.historyAdd conversationId "assistant" r = .ok ())
    (he : e ≠ []) :
    processMessage env conversationId message =
      (.ok r,
        [Ev.redisGetEv (strLower (strTrim message)),
         Ev.embedEv (strLower (strTrim message)),
         Ev.qdrantSearchEv e] ++ levs ++
        [Ev.redisSetEv (strLower (strTrim message)) r,
         Ev.embedEv (strLower (strTrim message)),
         Ev.qdrantUpsertEv (strLower (strTrim message)) r e,
         Ev.histAddEv conversationId "user" message,
         Ev.histAddEv conversationId "assistant" r]) ∧
    Ev.redisSetEv (strLower (strTrim message)) r ∈
      (processMessage env conversationId message).2 ∧
    Ev.qdrantUpsertEv (strLower (strTrim message)) r e ∈
      (processMessage env conversationId message).2 := by
  have hmain : processMessage env conversationId message =
      (.ok r,
        [Ev.redisGetEv (strLower (strTrim message)),
         Ev.embedEv (strLower (strTrim message)),
         Ev.qdrantSearchEv e] ++ levs ++
        [Ev.redisSetEv (strLower (strTrim message)) r,
         Ev.embedEv (strLower (strTrim message)),
         Ev.qdrantUpsertEv (strLower (strTrim message)) r e,
         Ev.histAddEv conversationId "user" message,
         Ev.histAddEv conversationId "assistant" r]) := by
    unfold processMessage checkQdrantCache agentQdrantHit processMessageMiss
    simp [henable, hredis, hqdrant, hmiss, hembed, htop, hllm, hhist1, hhist2, he]
  refine ⟨hmain, ?_, ?_⟩ <;> rw [hmain] <;> simp

/-- **C2, counterexample.** A concrete full-miss turn whose LLM interaction
returns the empty string: the trace contains a Redis `SET` of `""` and a
Qdrant upsert of `""`, refuting "an empty response string is never written
to the exact tier nor to the semantic tier".  The environment routes the
intent `greet` to `general_llm_call`, whose chat completion returns
`""`. -/
theorem C2_counterexample :
    Ev.redisSetEv "hi" "" ∈
      (processMessage
        ⟨true, true, [], true, 1/2, fun _ => none, fun _ => .ok [1],
         fun _ _ => .ok [], fun _ _ _ => .ok (),
         ⟨fun p => if p = "IC" then .ok "greet" else .ok "",
          fun _ => .ok [], fun _ _ _ _ _ => .ok [], fun _ => .ok 0,
          fun _ _ => 0, fun _ => "", fun _ => "", "", "", [],
          ⟨[("greet", ⟨"d", "general_llm_call"⟩)],
           [("intent_classification", "IC")], []⟩, 5, false⟩, 5⟩
        "c" "hi").2 ∧
    Ev.qdrantUpsertEv "hi" "" [1] ∈
      (processMessage
        ⟨true, true, [], true, 1/2, fun _ => none, fun _ => .ok [1],
         fun _ _ => .ok [], fun _ _ _ => .ok (),
         ⟨fun p => if p = "IC" then .ok "greet" else .ok "",
          fun _ => .ok [], fun _ _ _ _ _ => .ok [], fun _ => .ok 0,
          fun _ _ => 0, fun _ => "", fun _ => "", "", "", [],
          ⟨[("greet", ⟨"d", "general_llm_call"⟩)],
           [("intent_classification", "IC")], []⟩, 5, false⟩, 5⟩
        "c" "hi").2 := by
  decide

/-- **C2, witness.** The amended claim applied to the counterexample's
environment: with the LLM interaction returning `""`, the full trace shows
the empty response being written to Redis and upserted to Qdrant. -/
theorem C2_cache_write_unfiltered_witness :
    processMessage
      ⟨true, true, [], true, 1/2, fun _ => none, fun _ => .ok [1],
       fun _ _ => .ok [], fun _ _ _ => .ok (),
       ⟨fun p => if p = "IC" then .ok "greet" else .ok "",
        fun _ => .ok [], fun _ _ _ _ _ => .ok [], fun _ => .ok 0,
        fun _ _ => 0, fun _ => "", fun _ => "", "", "", [],
        ⟨[("greet", ⟨"d", "general_llm_call"⟩)],
         [("intent_classification", "IC")], []⟩, 5, false⟩, 5⟩
      "c" "hi" =
      (.ok "",
        [Ev.redisGetEv "hi", Ev.embedEv "hi", Ev.qdrantSearchEv [1]] ++
        [Ev.histGetEv "c" 6, Ev.chatEv "IC", Ev.chatEv "\n\nUser: hi"] ++
        [Ev.redisSetEv "hi" "", Ev.embedEv "hi",
         Ev.qdrantUpsertEv "hi" "" [1],
         Ev.histAddEv "c" "user" "hi", Ev.histAddEv "c" "assistant" ""]) :=
  (C2_cache_write_unfiltered
    ⟨true, true, [], true, 1/2, fun _ => none, fun _ => .ok [1],
     fun _ _ => .ok [], fun _ _ _ => .ok (),
     ⟨fun p => if p = "IC" then .ok "greet" else .ok "",
      fun _ => .ok [], fun _ _ _ _ _ => .ok [], fun _ => .ok 0,
      fun _ _ => 0, fun _ => "", fun _ => "", "", "", [],
      ⟨[("greet", ⟨"d", "general_llm_call"⟩)],
       [("intent_classification", "IC")], []⟩, 5, false⟩, 5⟩
    "c" "hi" "" [1]
    [Ev.histGetEv "c" 6, Ev.chatEv "IC", Ev.chatEv "\n\nUser: hi"]
    rfl rfl rfl (by rfl) (by rfl) rfl (by rfl) rfl rfl (by decide)).1

/-- **C9.** A tier-B hit whose stored response is the empty string is never
returned: `process_message` falls through to the LLM interaction and
returns its response, and the embedding computed during the tier-B lookup
is reused verbatim for the tier-B cache write — the caching phase of the
trace contains a Qdrant upsert carrying exactly that embedding and no
second call to the embedding client. -/
theorem C9_empty_semantic_hit_falls_through (env : AgentEnv)
    (conversationId message r np : String) (e : List Int) (levs : List Ev)
    (pt : ScoredPoint)
    (henable : env.enableCache = true)
    (hredis : env.redisPresent = true)
    (hqdrant : env.qdrantPresent = true)
    (hmiss : env.redisStore.find?
      (fun kv => kv.1 == strLower (strTrim message)) = none)
    (hembed : env.embed (strLower (strTrim message)) = .ok e)
    (htop : env.cacheQdrantTop e = some pt)
    (hscore : env.cacheThreshold ≤ pt.score)
    (hpayload : parseCachePayload pt.payload = some ⟨np, ""⟩)
    (hllm : executeLlmInteraction env conversationId message = (.ok r, levs))
    (hhist1 : env.historyAdd conversationId "user" message = .ok ())
    (hhist2 : env.historyAdd conversationId "assistant" r = .ok ())
    (he : e ≠ []) :
    processMessage env conversationId message =
      (.ok r,
        [Ev.redisGetEv (strLower (strTrim message)),
         Ev.embedEv (strLower (strTrim message)),
         Ev.qdrantSearchEv e] ++ levs ++
        [Ev.redisSetEv (strLower (strTrim message)) r,
         Ev.qdrantUpsertEv (strLower (strTrim message)) r e,
         Ev.histAddEv conversationId "user" message,
         Ev.histAddEv conversationId "assistant" r]) ∧
    (∀ s, Ev.embedEv s ∉
      [Ev.redisSetEv (strLower (strTrim message)) r,
       Ev.qdrantUpsertEv (strLower (strTrim message)) r e,
       Ev.histAddEv conversationId "user" message,
       Ev.histAddEv conversationId "assistant" r]) := by
  constructor
  · unfold processMessage checkQdrantCache agentQdrantHit processMessageMiss
    simp [henable, hredis, hqdrant, hmiss, hembed, htop, hscore, hpayload,
      hllm, hhist1, hhist2, he]
  · intro s hs
    simp at hs

/-- **C9, witness.** A concrete environment whose semantic tier holds an
empty cached response at score 9/10 ≥ τ = 1/2: the turn returns the LLM's
`"HELLO"` and the upsert reuses the lookup embedding `[1]` with no second
embedding call. -/
theorem C9_empty_semantic_hit_falls_through_witness :
    processMessage
      ⟨true, true, [], true, 1/2,
       fun _ => some ⟨9/10, [("normalized_prompt", QVal.s "hi"),
         ("response", QVal.s "")]⟩,
       fun _ => .ok [1], fun _ _ => .ok [], fun _ _ _ => .ok (),
       ⟨fun p => if p = "IC" then .ok "greet" else .ok "HELLO",
        fun _ => .ok [], fun _ _ _ _ _ => .ok [], fun _ => .ok 0,
        fun _ _ => 0, fun _ => "", fun _ => "", "", "", [],
        ⟨[("greet", ⟨"d", "general_llm_call"⟩)],
         [("intent_classification", "IC")], []⟩, 5, false⟩, 5⟩
      "c" "hi" =
      (.ok "HELLO",
        [Ev.redisGetEv "hi", Ev.embedEv "hi", Ev.qdrantSearchEv [1]] ++
        [Ev.histGetEv "c" 6, Ev.chatEv "IC", Ev.chatEv "\n\nUser: hi"] ++
        [Ev.redisSetEv "hi" "HELLO", Ev.qdrantUpsertEv "hi" "HELLO" [1],
         Ev.histAddEv "c" "user" "hi",
         Ev.histAddEv "c" "assistant" "HELLO"]) :=
  (C9_empty_semantic_hit_falls_through
    ⟨true, true, [], true, 1/2,
     fun _ => some ⟨9/10, [("normalized_prompt", QVal.s "hi"),
       ("response", QVal.s "")]⟩,
     fun _ => .ok [1], fun _ _ => .ok [], fun _ _ _ => .ok (),
     ⟨fun p => if p = "IC" then .ok "greet" else .ok "HELLO",
      fun _ => .ok [], fun _ _ _ _ _ => .ok [], fun _ => .ok 0,
      fun _ _ => 0, fun _ => "", fun _ => "", "", "", [],
      ⟨[("greet", ⟨"d", "general_llm_call"⟩)],
       [("intent_classification", "IC")], []⟩, 5, false⟩, 5⟩
    "c" "hi" "HELLO" "hi" [1]
    [Ev.histGetEv "c" 6, Ev.chatEv "IC", Ev.chatEv "\n\nUser: hi"]
    ⟨9/10, [("normalized_prompt", QVal.s "hi"), ("response", QVal.s "")]⟩
    rfl rfl rfl (by rfl) (by rfl) rfl (by norm_num) (by rfl) (by rfl)
    rfl rfl (by decide)).1

/-- `findSub` misses exactly when the pattern is a prefix of no suffix. -/
theorem findSub_none_iff (p t : List Char) :
    findSub p t = none ↔ ∀ k, ¬(p.isPrefixOf (t.drop k) = true) := by
  induction t with
  | nil =>
    simp only [findSub, List.drop_nil]
    split_ifs with h
    · simp [h]
    · simp [h]
  | cons c ts ih =>
    simp only [findSub]
    split_ifs with h
    · constructor
      · intro hc
        simp at hc
      · intro hall
        exact absurd h (by simpa using hall 0)
    · rw [Option.map_eq_none', ih]
      constructor
      · intro hall k
        cases k with
        | zero => simpa using h
        | succ k' => simpa using hall k'
      · intro hall k
        simpa using hall (k + 1)

/-- Absence of a pattern is inherited by every suffix. -/
theorem findSub_none_drop (p t : List Char) (m : Nat)
    (h : findSub p t = none) : findSub p (t.drop m) = none := by
  rw [findSub_none_iff] at *
  intro k
  rw [List.drop_drop]
  exact h _

/-- One meta-cut iteration always returns a suffix of its input. -/
theorem metaCutOne_drop (p t : List Char) :
    ∃ m, metaCutOne p t = List.drop m t := by
  unfold metaCutOne
  cases h1 : findSub p t with
  | none => exact ⟨0, by simp [h1]⟩
  | some pos =>
    cases h2 : findSub nl2 (t.drop pos) with
    | none => exact ⟨0, by simp [h1, h2]⟩
    | some e => exact ⟨pos + e + 2, by simp [h1, h2]⟩

/-- The meta-commentary loop is the identity when none of its patterns
occurs in the text. -/
theorem metaCutFold_id (ps : List (List Char)) (t : List Char)
    (h : ∀ q ∈ ps, findSub q t = none) :
    ps.foldl (fun acc q => metaCutOne q acc) t = t := by
  induction ps with
  | nil => rfl
  | cons q rest ih =>
    simp only [List.foldl_cons]
    have hq : metaCutOne q t = t := by
      unfold metaCutOne
      rw [h q (List.mem_cons_self q rest)]
    rw [hq]
    exact ih (fun q' hq' => h q' (List.mem_cons_of_mem _ hq'))

/-- When exactly one pattern of a duplicate-free pattern list occurs in the
text, the whole meta-commentary loop coincides with that single pattern's
iteration. -/
theorem metaCutFold_single (ps : List (List Char)) (t : List Char)
    (p : List Char) :
    ps.Nodup → p ∈ ps → (∀ q ∈ ps, q ≠ p → findSub q t = none) →
    ps.foldl (fun acc q => metaCutOne q acc) t = metaCutOne p t := by
  induction ps with
  | nil =>
    intro _ hp _
    simp at hp
  | cons q rest ih =>
    intro hnd hp honly
    simp only [List.foldl_cons]
    rcases List.mem_cons.1 hp with rfl | hp'
    · obtain ⟨m, hm⟩ := metaCutOne_drop p t
      refine metaCutFold_id rest (metaCutOne p t) ?_
      intro q' hq'
      have hne : q' ≠ p := fun heq => (List.nodup_cons.1 hnd).1 (heq ▸ hq')
      rw [hm]
      exact findSub_none_drop _ _ _
        (honly q' (List.mem_cons_of_mem _ hq') hne)
    · have hqne : q ≠ p := fun heq =>
        (List.nodup_cons.1 hnd).1 (heq ▸ hp')
      have hq : metaCutOne q t = t := by
        unfold metaCutOne
        rw [honly q (List.mem_cons_self q rest) hqne]
      rw [hq]
      exact ih (List.nodup_cons.1 hnd).2 hp'
        (fun q' hq' hne => honly q' (List.mem_cons_of_mem _ hq') hne)

/-- **C10.** For a text containing exactly one of the meta-commentary
markers (and none of the literal tokens of the preceding replacement pass):
if a blank line occurs after the marker, `clean_response_text` removes
everything from the start of the text through that blank line — content
preceding the marker included — and then applies only the final
blank-line-collapse and trim; if no blank line follows the marker, the
text passes through the loop intact and only the collapse-and-trim pass
applies. -/
theorem C10_clean_response_text (text : String) (p : List Char)
    (hp : p ∈ metaPatterns)
    (hA : replaceLits text.data = text.data)
    (honly : ∀ q ∈ metaPatterns, q ≠ p → findSub q text.data = none) :
    (∀ pos endPos, findSub p text.data = some pos →
      findSub nl2 (text.data.drop pos) = some endPos →
      cleanResponseText text =
        String.mk (collapseAndTrim (text.data.drop (pos + endPos + 2)))) ∧
    (∀ pos, findSub p text.data = some pos →
      findSub nl2 (text.data.drop pos) = none →
      cleanResponseText text = String.mk (collapseAndTrim text.data)) := by
  have hnd : metaPatterns.Nodup := by decide
  have hclean : cleanResponseText text =
      String.mk (collapseAndTrim (metaCutOne p text.data)) := by
    unfold cleanResponseText metaCut
    rw [hA, metaCutFold_single metaPatterns text.data p hnd hp honly]
  constructor
  · intro pos endPos h1 h2
    rw [hclean]
    unfold metaCutOne
    simp only [h1, h2]
  · intro pos h1 h2
    rw [hclean]
    unfold metaCutOne
    simp only [h1, h2]

/-- **C10, witness.** With the marker `Final Answer:`:
`"Note Final Answer: soon\n\nThe result."` is cut through the blank line
(dropping the leading `"Note "` too), yielding `"The result."`; and
`"Say Final Answer: now"`, which has no blank line after the marker, is
returned intact. -/
theorem C10_clean_response_text_witness :
    cleanResponseText "Note Final Answer: soon\n\nThe result." =
      "The result." ∧
    cleanResponseText "Say Final Answer: now" = "Say Final Answer: now" := by
  constructor
  · have h := (C10_clean_response_text "Note Final Answer: soon\n\nThe result."
      ("Final Answer:").data (by decide) (by decide) (by decide)).1
      5 18 (by decide) (by decide)
    rw [h]
    decide
  · have h := (C10_clean_response_text "Say Final Answer: now"
      ("Final Answer:").data (by decide) (by decide) (by decide)).2
      4 (by decide) (by decide)
    rw [h]
    decide

end DynamicAgent
